import Mathlib

/-!
Shallow embedding of the `traffic_gen` flow synthesizer
(`custom_random_number_generator.py`, `traffic_gen_utils.py`, `traffic_gen.py`).

Python floats are modelled as elements of a linear ordered field (instantiated
at `ℚ` for the exact-arithmetic CDF queries and at `ℝ` for the generation
pipeline, whose source calls `math.log`).  Fallible operations (list indexing
on an empty list, implicit `None` returns, `ZeroDivisionError`) are modelled
with `Option`; `none` marks a raised exception or an implicit `None`.
The process-wide pseudo-random source is modelled by explicit draw streams.
-/

namespace TrafficGen

variable {α : Type} [LinearOrderedField α]

/-- A CDF data point `(value, cumulative_prob_perc)`
(`CdfDataPoint` in `custom_random_number_generator.py`). -/
abbrev CdfDataPoint (α : Type) := α × α

/-- The strict monotonicity check of `is_valid_cdf`'s `for` loop: every
adjacent pair must strictly increase in both value and probability
(the loop returns `False` when
`curr_cumulative_prob_perc <= prev_cumulative_prob_perc or curr_val <= prev_val`). -/
def cdf_steps_ok : List (CdfDataPoint α) → Bool
  | p0 :: p1 :: rest =>
    if p1.2 ≤ p0.2 ∨ p1.1 ≤ p0.1 then false else cdf_steps_ok (p1 :: rest)
  | _ => true

/-- `CustomRandomNumberGenerator.is_valid_cdf`.  The source reads
`input_cdf[0]` and `input_cdf[-1]` before testing `not input_cdf`, so an empty
list raises `IndexError` (modelled as `none`); the `not input_cdf` branch is
unreachable.  For a non-empty list it returns `False` when the first
cumulative probability is not `0` or the last is not `100`, otherwise the
result of the adjacent-pair monotonicity loop. -/
def is_valid_cdf : List (CdfDataPoint α) → Option Bool
  | [] => none
  | first :: rest =>
    let lastPoint := rest.getLastD first
    if first.2 ≠ 0 ∨ lastPoint.2 ≠ 100 then some false
    else some (cdf_steps_ok (first :: rest))

/-- The accumulation loop of `calculate_average_value`:
`total += (curr_value + prev_value) / 2.0 * (curr_cumulative_prob - prev_cumulative_prob)`
over `self.cdf[1:]`, with `prev` starting at `self.cdf[0]`. -/
def cav_loop (prev : CdfDataPoint α) : List (CdfDataPoint α) → α
  | [] => 0
  | curr :: rest => (curr.1 + prev.1) / 2 * (curr.2 - prev.2) + cav_loop curr rest

/-- `CustomRandomNumberGenerator.calculate_average_value`.  Reads
`self.cdf[0]`, so an empty CDF raises `IndexError` (`none`); otherwise the
trapezoidal accumulation divided by `100`. -/
def calculate_average_value : List (CdfDataPoint α) → Option α
  | [] => none
  | first :: rest => some (cav_loop first rest / 100)

/-- `CustomRandomNumberGenerator.get_value_from_percentile`.  Scans adjacent
pairs; on the first segment whose upper cumulative probability bounds the
requested percentile it linearly interpolates
`lower_value + (percentile - lower_percentile) * ((upper_value - lower_value) / (upper_percentile - lower_percentile))`.
Falling off the loop returns Python `None` (`none`). -/
def get_value_from_percentile : List (CdfDataPoint α) → α → Option α
  | lower :: upper :: rest, percentile =>
    if percentile ≤ upper.2 then
      some (lower.1 + (percentile - lower.2) * ((upper.1 - lower.1) / (upper.2 - lower.2)))
    else get_value_from_percentile (upper :: rest) percentile
  | _, _ => none

/-- The `for` loop of `get_percentile_from_value`: finds the first segment
whose upper value bounds `value` and interpolates
`lower_percentile + ((upper_percentile - lower_percentile) / (upper_value - lower_value) * (value - lower_value))`. -/
def gpv_loop : List (CdfDataPoint α) → α → Option α
  | lower :: upper :: rest, value =>
    if value ≤ upper.1 then
      some (lower.2 + (upper.2 - lower.2) / (upper.1 - lower.1) * (value - lower.1))
    else gpv_loop (upper :: rest) value
  | _, _ => none

/-- `CustomRandomNumberGenerator.get_percentile_from_value`.  Reads
`self.cdf[-1]` (an empty CDF raises `IndexError`, modelled `none`), returns
the sentinel `-1` when `value < 0` or `value` exceeds the last value, and
otherwise runs the interpolation loop. -/
def get_percentile_from_value (cdf : List (CdfDataPoint α)) (value : α) : Option α :=
  match cdf.getLast? with
  | none => none
  | some lastPoint =>
    if value < 0 ∨ value > lastPoint.1 then some (-1)
    else gpv_loop cdf value

/-- Digit-string value: `foldl` over decimal digits, as Python's `float`
builtin computes the integral or fractional part of a decimal literal. -/
def decimalDigitsVal (l : List Char) : ℕ :=
  l.foldl (fun acc c => 10 * acc + (c.toNat - 48)) 0

/-- Models the Python builtin `float()` on the decimal literals that reach it
in this program: an optional integral digit run, an optional dot, an optional
fractional digit run (at least one digit overall); anything else raises
`ValueError` (`none`).  The builtin itself is external to the repository. -/
def pyFloat (s : List Char) : Option ℚ :=
  let intPart := s.takeWhile (fun c => c ≠ '.')
  match s.dropWhile (fun c => c ≠ '.') with
  | [] =>
    if intPart ≠ [] ∧ intPart.all Char.isDigit then
      some (decimalDigitsVal intPart) else none
  | _ :: fracPart =>
    if fracPart.any (fun c => c = '.') then none
    else if (intPart = [] ∧ fracPart = []) then none
    else if intPart.all Char.isDigit ∧ fracPart.all Char.isDigit then
      some ((decimalDigitsVal intPart : ℚ)
        + (decimalDigitsVal fracPart : ℚ) / (10 : ℚ) ^ fracPart.length)
    else none

/-- `traffic_gen_utils.translate_bandwidth`, on the string's character list.
`unit = bandwidth_string[-1]` (empty input raises, `none`); a numeric last
character selects multiplier `1`, `K`/`M`/`G` select `1e3`/`1e6`/`1e9`, any
other raises `ValueError` (`none`).  The converted magnitude is
`float(bandwidth_string[:-1])` — the last character is dropped in every
branch — times the multiplier.  (`Char.isDigit` stands for `str.isnumeric`,
which agrees on the ASCII characters this program feeds it.) -/
def translate_bandwidth (bandwidth_string : List Char) : Option ℚ :=
  match bandwidth_string.getLast? with
  | none => none
  | some unit =>
    let multiplier : Option ℚ :=
      if unit.isDigit then some 1
      else if unit = 'K' then some 1000
      else if unit = 'M' then some 1000000
      else if unit = 'G' then some 1000000000
      else none
    match multiplier with
    | none => none
    | some m =>
      match pyFloat bandwidth_string.dropLast with
      | none => none
      | some value => some (value * m)

/-- `traffic_gen_utils.exponential_dist_sample`: `-math.log(1 - random.random()) * mean`,
with the `random.random()` draw `u` made an explicit argument. -/
noncomputable def exponential_dist_sample (u mean : ℝ) : ℝ :=
  -Real.log (1 - u) * mean

/-- `traffic_gen_utils.get_dst`: rejection-samples `random.randint(0, number_hosts - 1)`
until the draw differs from `src_idx`.  The PRNG is modelled by the stream
`draws` reduced modulo `number_hosts` (randint's range), and the otherwise
unbounded `while` loop by explicit fuel: `none` means the fuel ran out. -/
def get_dst (src_idx number_hosts : ℕ) (draws : ℕ → ℕ) : ℕ → Option ℕ
  | 0 => none
  | fuel + 1 =>
    let dst_idx := draws 0 % number_hosts
    if dst_idx = src_idx then
      get_dst src_idx number_hosts (fun i => draws (i + 1)) fuel
    else some dst_idx

/-- Python's `int()` on a float: truncation toward zero. -/
noncomputable def pyInt (x : ℝ) : ℤ := if 0 ≤ x then ⌊x⌋ else ⌈x⌉

/-- `NS_IN_S = 1e9` from `traffic_gen.py`. -/
def NS_IN_S : ℝ := 1000000000

/-- `BYTE_TO_BIT = 8.0` from `traffic_gen.py`. -/
def BYTE_TO_BIT : ℝ := 8

/-- The `Flow` namedtuple of `traffic_gen.py`:
`(src_idx, dst_idx, size_bytes, start_time_s)`. -/
structure Flow where
  src_idx : ℕ
  dst_idx : ℕ
  size_bytes : ℤ
  start_time_s : ℝ

/-- The per-host `while` loop of `main` in `traffic_gen.py`: while
`flow_start_time_ns < base_time_ns + sim_duration_ns`, draw a destination
(`get_dst`), a size (`max(int(custom_rand.generate_random_number()), 1)`,
where `generate_random_number` is `get_value_from_percentile` at the uniform
percentile `size_draws k * 100`), append the flow, and advance the clock by
`int(exponential_dist_sample(avg_inter_arrival_time_ns))`.

The PRNG is modelled by per-iteration draw streams (`gap_draws`,
`size_draws` in `[0,1)`, and `dst_draws k` for the `k`-th `get_dst` call) and
the data-dependent `while` loop by explicit fuel.  The returned flag is
`true` when the loop exited normally; it is `false` when the fuel ran out or
a call inside the body failed (modelling a run that has not finished:
the partially accumulated flow list is returned either way. -/
noncomputable def gen_host_flows (cdf : List (CdfDataPoint ℝ)) (src_idc nhost : ℕ)
    (base_time_ns sim_duration_ns avg_inter_arrival_time_ns : ℝ)
    (gap_draws size_draws : ℕ → ℝ) (dst_draws : ℕ → ℕ → ℕ) (dst_fuel : ℕ) :
    ℕ → ℕ → ℝ → List Flow × Bool
  | _, 0, _ => ([], false)
  | k, fuel + 1, flow_start_time_ns =>
    if flow_start_time_ns < base_time_ns + sim_duration_ns then
      match get_dst src_idc nhost (dst_draws k) dst_fuel,
          get_value_from_percentile cdf (size_draws k * 100) with
      | some dst_idx_, some size_sample =>
        let flow : Flow :=
          ⟨src_idc, dst_idx_, max (pyInt size_sample) 1, flow_start_time_ns / NS_IN_S⟩
        let next := gen_host_flows cdf src_idc nhost base_time_ns sim_duration_ns
          avg_inter_arrival_time_ns gap_draws size_draws dst_draws dst_fuel (k + 1) fuel
          (flow_start_time_ns
            + (pyInt (exponential_dist_sample (gap_draws (k + 1)) avg_inter_arrival_time_ns) : ℝ))
        (flow :: next.1, next.2)
      | _, _ => ([], false)
    else ([], true)

/-- The `for src_idc in range(nhost)` loop of `main`: each host starts its
clock at `base_time_ns + int(exponential_dist_sample(...))` (draw index `0`)
and appends its flows to the shared `flow_list` in host order.  The flag is
`true` when every host's loop exited normally. -/
noncomputable def gen_flows (cdf : List (CdfDataPoint ℝ)) (nhost : ℕ)
    (base_time_ns sim_duration_ns avg_inter_arrival_time_ns : ℝ)
    (gap_draws size_draws : ℕ → ℕ → ℝ) (dst_draws : ℕ → ℕ → ℕ → ℕ)
    (dst_fuel fuel : ℕ) : List Flow × Bool :=
  (List.range nhost).foldl
    (fun acc src_idc =>
      let hostRun := gen_host_flows cdf src_idc nhost base_time_ns sim_duration_ns
        avg_inter_arrival_time_ns (gap_draws src_idc) (size_draws src_idc)
        (dst_draws src_idc) dst_fuel 0 fuel
        (base_time_ns
          + (pyInt (exponential_dist_sample (gap_draws src_idc 0) avg_inter_arrival_time_ns) : ℝ))
      (acc.1 ++ hostRun.1, acc.2 && hostRun.2))
    ([], true)

/-- Strict growth of one CDF step in both coordinates: the property
`is_valid_cdf`'s loop checks for every adjacent pair. -/
def StrictStep (x y : CdfDataPoint α) : Prop := x.1 < y.1 ∧ x.2 < y.2

/-- Modelled from the spec: the trapezoidal sum over adjacent pairs
`(v0,p0),(v1,p1)` of `(v0+v1)/2 * (p1-p0)`, stated over `zip` for the
refinement comparison with `calculate_average_value`. -/
def trapezoidSum (cdf : List (CdfDataPoint α)) : α :=
  ((cdf.zip cdf.tail).map (fun q => (q.1.1 + q.2.1) / 2 * (q.2.2 - q.1.2))).sum

/-- The comparison `main` sorts by: `key=lambda flow: flow.start_time_s`. -/
def flowLE (f g : Flow) : Prop := f.start_time_s ≤ g.start_time_s

noncomputable instance : DecidableRel flowLE := fun f g =>
  Real.decidableLE f.start_time_s g.start_time_s

instance : IsTotal Flow flowLE := ⟨fun f g => le_total f.start_time_s g.start_time_s⟩

instance : IsTrans Flow flowLE := ⟨fun _ _ _ h h' => le_trans h h'⟩

/-- `main` of `traffic_gen.py`, after command-line parsing, with the parsed
bandwidth (`translate_bandwidth`'s result) and the CDF point list (read by
`set_cdf_from_file`) taken as inputs and the PRNG modelled by draw streams.
In source order: exit when `nhost < 2` (or falsy); exit when the CDF is not
valid (`set_cdf_from_file`); compute the average inter-arrival time in ns,
where `avg_load_bps = bandwidth_bps * load` equal to zero raises
`ZeroDivisionError`; generate all flows; stably sort them by
`start_time_s`.  `none` models an aborted run (exit, uncaught exception, or
a generation loop that has not finished within the fuel). -/
noncomputable def traffic_main (nhost : ℕ) (load bandwidth_bps : ℝ)
    (base_time_s sim_duration_s : ℝ) (cdf : List (CdfDataPoint ℝ))
    (gap_draws size_draws : ℕ → ℕ → ℝ) (dst_draws : ℕ → ℕ → ℕ → ℕ)
    (dst_fuel fuel : ℕ) : Option (List Flow) :=
  if nhost < 2 then none
  else if is_valid_cdf cdf ≠ some true then none
  else
    match calculate_average_value cdf with
    | none => none
    | some avg_value =>
      let avg_msg_size_bits := avg_value * BYTE_TO_BIT
      let avg_load_bps := bandwidth_bps * load
      if avg_load_bps = 0 then none
      else
        let avg_inter_arrival_time_ns := avg_msg_size_bits / avg_load_bps * NS_IN_S
        let run := gen_flows cdf nhost (base_time_s * NS_IN_S) (sim_duration_s * NS_IN_S)
          avg_inter_arrival_time_ns gap_draws size_draws dst_draws dst_fuel fuel
        if run.2 then some (run.1.insertionSort flowLE) else none

end TrafficGen

section Examples
open TrafficGen

example : is_valid_cdf ([] : List (ℚ × ℚ)) = none := by norm_num [is_valid_cdf, cdf_steps_ok, calculate_average_value, cav_loop, get_value_from_percentile, get_percentile_from_value, gpv_loop]
example : is_valid_cdf [((0 : ℚ), (0 : ℚ)), (1, 50), (2, 100)] = some true := by norm_num [is_valid_cdf, cdf_steps_ok, calculate_average_value, cav_loop, get_value_from_percentile, get_percentile_from_value, gpv_loop]
example : is_valid_cdf [((0 : ℚ), (0 : ℚ)), (2, 50), (1, 100)] = some false := by norm_num [is_valid_cdf, cdf_steps_ok, calculate_average_value, cav_loop, get_value_from_percentile, get_percentile_from_value, gpv_loop]
example : is_valid_cdf [((0 : ℚ), (0 : ℚ)), (1, 50), (2, 50)] = some false := by norm_num [is_valid_cdf, cdf_steps_ok, calculate_average_value, cav_loop, get_value_from_percentile, get_percentile_from_value, gpv_loop]
example : calculate_average_value [((0 : ℚ), (0 : ℚ)), (1, 50), (2, 100)] = some 1 := by norm_num [is_valid_cdf, cdf_steps_ok, calculate_average_value, cav_loop, get_value_from_percentile, get_percentile_from_value, gpv_loop]
example :
    calculate_average_value [((0 : ℚ), (0 : ℚ)), (1, 25), (2, 50), (3, 75), (4, 100)]
      = some 2 := by norm_num [is_valid_cdf, cdf_steps_ok, calculate_average_value, cav_loop, get_value_from_percentile, get_percentile_from_value, gpv_loop]
example : get_value_from_percentile [((0 : ℚ), (0 : ℚ)), (1, 50), (2, 100)] 75
    = some (3 / 2) := by norm_num [is_valid_cdf, cdf_steps_ok, calculate_average_value, cav_loop, get_value_from_percentile, get_percentile_from_value, gpv_loop]
example : get_value_from_percentile [((0 : ℚ), (0 : ℚ)), (1, 50), (2, 100)] 10
    = some (1 / 5) := by norm_num [is_valid_cdf, cdf_steps_ok, calculate_average_value, cav_loop, get_value_from_percentile, get_percentile_from_value, gpv_loop]
example : get_percentile_from_value [((0 : ℚ), (0 : ℚ)), (1, 50), (2, 100)] (3 / 2)
    = some 75 := by norm_num [is_valid_cdf, cdf_steps_ok, calculate_average_value, cav_loop, get_value_from_percentile, get_percentile_from_value, gpv_loop]
example : get_percentile_from_value [((0 : ℚ), (0 : ℚ)), (1, 50), (2, 100)] 3
    = some (-1) := by norm_num [is_valid_cdf, cdf_steps_ok, calculate_average_value, cav_loop, get_value_from_percentile, get_percentile_from_value, gpv_loop]
example : get_percentile_from_value [((1 : ℚ), (0 : ℚ)), (2, 100)] (99 / 100)
    = some (-1) := by norm_num [is_valid_cdf, cdf_steps_ok, calculate_average_value, cav_loop, get_value_from_percentile, get_percentile_from_value, gpv_loop]

example : translate_bandwidth "100".data = some 10 := by
  simp +decide [translate_bandwidth, pyFloat,
    show decimalDigitsVal ['1', '0'] = 10 from by decide]
example : translate_bandwidth "100K".data = some 100000 := by
  simp +decide [translate_bandwidth, pyFloat,
    show decimalDigitsVal ['1', '0', '0'] = 100 from by decide]
  norm_num
example : translate_bandwidth "2.5G".data = some 2500000000 := by
  simp +decide [translate_bandwidth, pyFloat,
    show decimalDigitsVal ['2'] = 2 from by decide,
    show decimalDigitsVal ['5'] = 5 from by decide]
  norm_num
example : translate_bandwidth "1.3".data = some 1 := by
  simp +decide [translate_bandwidth, pyFloat,
    show decimalDigitsVal ['1'] = 1 from by decide]
example : translate_bandwidth "10X".data = none := by
  simp +decide [translate_bandwidth]
example : translate_bandwidth "1.5KB".data = none := by
  simp +decide [translate_bandwidth, pyFloat]
example : translate_bandwidth "".data = none := by decide
example : get_dst 0 4 (fun _ => 1) 3 = some 1 := by decide
example : get_dst 1 4 (fun i => if i = 0 then 1 else 3) 5 = some 3 := by decide

end Examples

namespace TrafficGen

variable {α : Type} [LinearOrderedField α]

theorem strictStep_trans {x y z : CdfDataPoint α} (h : StrictStep x y)
    (h' : StrictStep y z) : StrictStep x z :=
  ⟨h.1.trans h'.1, h.2.trans h'.2⟩

theorem cdf_steps_ok_iff_chain :
    ∀ l : List (CdfDataPoint α), cdf_steps_ok l = true ↔ l.Chain' StrictStep
  | [] => by simp [cdf_steps_ok]
  | [a] => by simp [cdf_steps_ok]
  | a :: b :: t => by
    rw [cdf_steps_ok, List.chain'_cons]
    by_cases h : b.2 ≤ a.2 ∨ b.1 ≤ a.1
    · simp only [if_pos h]
      constructor
      · intro hfalse; exact absurd hfalse (by simp)
      · rintro ⟨⟨h1, h2⟩, -⟩
        rcases h with h | h
        · exact absurd h2 (not_lt_of_le h)
        · exact absurd h1 (not_lt_of_le h)
    · rw [if_neg h]
      push_neg at h
      rw [cdf_steps_ok_iff_chain (b :: t)]
      exact ⟨fun hc => ⟨⟨h.2, h.1⟩, hc⟩, fun hc => hc.2⟩

/-- Destructuring of `is_valid_cdf cdf = some true`: the list has a head with
cumulative probability `0`, a distinct last point with cumulative probability
`100`, and every adjacent pair strictly increases in both coordinates. -/
theorem is_valid_cdf_destructure {cdf : List (CdfDataPoint α)}
    (h : is_valid_cdf cdf = some true) :
    ∃ a rest, cdf = a :: rest ∧ rest ≠ [] ∧ a.2 = 0 ∧
      (rest.getLastD a).2 = 100 ∧ (a :: rest).Chain' StrictStep := by
  match cdf with
  | [] => simp [is_valid_cdf] at h
  | a :: rest =>
    rw [is_valid_cdf] at h
    by_cases hc : a.2 ≠ 0 ∨ (rest.getLastD a).2 ≠ 100
    · rw [if_pos hc] at h; exact absurd (Option.some_injective _ h) (by simp)
    · push_neg at hc
      rw [if_neg (by push_neg; exact hc)] at h
      refine ⟨a, rest, rfl, ?_, hc.1, hc.2, ?_⟩
      · rintro rfl
        rw [List.getLastD_nil] at hc
        rw [hc.1] at hc
        norm_num at hc
      · rw [← cdf_steps_ok_iff_chain]
        exact Option.some_injective _ h

theorem chain'_strictStep_getLastD {l : List (CdfDataPoint α)} :
    ∀ a : CdfDataPoint α, (a :: l).Chain' StrictStep → l ≠ [] →
      StrictStep a (l.getLastD a) := by
  induction l with
  | nil => intro a _ hne; exact absurd rfl hne
  | cons b t ih =>
    intro a hchain _
    rw [List.chain'_cons] at hchain
    rcases t with - | ⟨c, t'⟩
    · simpa using hchain.1
    · have := ih b hchain.2 (by simp)
      simpa using strictStep_trans hchain.1 (by simpa using this)

end TrafficGen

namespace TrafficGen

variable {α : Type} [LinearOrderedField α]

theorem cav_loop_eq_trapezoid (rest : List (CdfDataPoint α)) :
    ∀ first, cav_loop first rest = trapezoidSum (first :: rest) := by
  induction rest with
  | nil => intro a; simp [cav_loop, trapezoidSum]
  | cons b t ih =>
    intro a
    rw [cav_loop, ih b]
    simp only [trapezoidSum, List.tail_cons, List.zip_cons_cons, List.map_cons, List.sum_cons]
    ring

end TrafficGen

open TrafficGen

/-- C2: `is_valid_cdf` is claimed to return a boolean without raising for
every input, `false` on the empty sequence.  The code reads `input_cdf[0]`
before its `not input_cdf` test, so the empty sequence raises `IndexError`
(modelled as `none`) instead of returning `False`; the emptiness branch is
dead code, contradicting the function's own docstring and structure. -/
theorem c2_validate_empty_cdf_raises :
    is_valid_cdf ([] : List (CdfDataPoint ℚ)) = none := rfl

/-- C3 counterexample: at the uniform draw `U = 0` (which lies in `[0,1)`)
and `meanGap = 1 > 0`, `exponential_dist_sample` returns exactly `0`, which
is not strictly positive — refuting the claim as stated. -/
theorem c3_counterexample :
    (0 : ℝ) < 1 ∧ (0 : ℝ) ≤ 0 ∧ (0 : ℝ) < 1 ∧
      exponential_dist_sample 0 1 = 0 ∧ ¬ 0 < exponential_dist_sample 0 1 := by
  refine ⟨by norm_num, le_refl 0, by norm_num, ?_, ?_⟩ <;>
    simp [exponential_dist_sample]

/-- C3 amended: for `meanGap > 0` and a uniform draw `U ∈ [0,1)`,
`sampleInterArrival` returns `-ln(1 - U) * meanGap`; the result is
nonnegative, and strictly positive exactly when `U > 0` (at `U = 0` it is
zero). -/
theorem c3_amended (u mean : ℝ) (hmean : 0 < mean) (h0 : 0 ≤ u) (h1 : u < 1) :
    exponential_dist_sample u mean = -Real.log (1 - u) * mean ∧
      0 ≤ exponential_dist_sample u mean ∧
      (0 < u → 0 < exponential_dist_sample u mean) := by
  refine ⟨rfl, ?_, ?_⟩
  · have hlog : Real.log (1 - u) ≤ 0 := Real.log_nonpos (by linarith) (by linarith)
    exact mul_nonneg (by linarith) hmean.le
  · intro hu
    have hlog : Real.log (1 - u) < 0 := Real.log_neg (by linarith) (by linarith)
    exact mul_pos (by linarith) hmean

/-- C3 witness: the amended theorem applied at `U = 1/2`, `meanGap = 2`. -/
theorem c3_witness :
    (0 : ℝ) < 2 ∧ (0 : ℝ) ≤ 1 / 2 ∧ (1 / 2 : ℝ) < 1 ∧
      0 < exponential_dist_sample (1 / 2) 2 :=
  ⟨by norm_num, by norm_num, by norm_num,
    (c3_amended (1 / 2) 2 (by norm_num) (by norm_num) (by norm_num)).2.2 (by norm_num)⟩

/-- C4 counterexample: the claim says a plain numeric literal maps to its own
value (`"100"` yields `100.0`), but `translate_bandwidth` drops the last
character in every branch: `"100"` yields `float("10") * 1 = 10.0`. -/
theorem c4_counterexample :
    translate_bandwidth "100".data = some 10 ∧ (10 : ℚ) ≠ 100 := by
  constructor
  · simp +decide [translate_bandwidth, pyFloat,
      show decimalDigitsVal ['1', '0'] = 10 from by decide]
  · norm_num

/-- C4 amended: `translate_bandwidth` always drops the last character of the
string before numeric conversion.  A string ending in a digit is converted
with multiplier `1` applied to the literal without its final character
(so `"100"` yields `10.0`); appending `K`, `M`, or `G` to a numeric literal
multiplies that literal's value by `1e3`, `1e6`, or `1e9` respectively. -/
theorem c4_amended (s : List Char) (c : Char) (x : ℚ) :
    (s.getLast? = some c → c.isDigit = true → pyFloat s.dropLast = some x →
      translate_bandwidth s = some x) ∧
    (pyFloat s = some x → translate_bandwidth (s ++ ['K']) = some (x * 1000)) ∧
    (pyFloat s = some x → translate_bandwidth (s ++ ['M']) = some (x * 1000000)) ∧
    (pyFloat s = some x → translate_bandwidth (s ++ ['G']) = some (x * 1000000000)) := by
  refine ⟨fun hl hd hp => ?_, fun hp => ?_, fun hp => ?_, fun hp => ?_⟩
  · rw [translate_bandwidth, hl]
    simp [hd, hp]
  · rw [translate_bandwidth, List.getLast?_concat, List.dropLast_concat]
    simp +decide [hp]
  · rw [translate_bandwidth, List.getLast?_concat, List.dropLast_concat]
    simp +decide [hp]
  · rw [translate_bandwidth, List.getLast?_concat, List.dropLast_concat]
    simp +decide [hp]

/-- C4 witness: the amended theorem applied to the literal `"2.5"` with the
`G` suffix, and to the digit-terminated literal `"100"`. -/
theorem c4_witness :
    pyFloat "2.5".data = some (5 / 2) ∧
      translate_bandwidth ("2.5".data ++ ['G']) = some (5 / 2 * 1000000000) ∧
      "100".data.getLast? = some '0' ∧ ('0').isDigit = true ∧
      pyFloat "100".data.dropLast = some 10 ∧
      translate_bandwidth "100".data = some 10 := by
  have h25 : pyFloat "2.5".data = some (5 / 2) := by
    simp +decide [pyFloat,
      show decimalDigitsVal ['2'] = 2 from by decide,
      show decimalDigitsVal ['5'] = 5 from by decide]
    norm_num
  have h10 : pyFloat "100".data.dropLast = some 10 := by
    simp +decide [pyFloat, show decimalDigitsVal ['1', '0'] = 10 from by decide]
  exact ⟨h25, (c4_amended "2.5".data 'G' (5 / 2)).2.2.2 h25, by decide, by decide, h10,
    (c4_amended "100".data '0' 10).1 (by decide) (by decide) h10⟩

/-- C7: for every valid CDF, `calculate_average_value` equals the trapezoidal
sum over adjacent pairs divided by `100`, and it returns `1` and `2` on the
two reference CDFs. -/
theorem c7_average_is_trapezoidal (cdf : List (CdfDataPoint ℚ))
    (hvalid : is_valid_cdf cdf = some true) :
    calculate_average_value cdf = some (trapezoidSum cdf / 100) ∧
      calculate_average_value [((0 : ℚ), (0 : ℚ)), (1, 50), (2, 100)] = some 1 ∧
      calculate_average_value [((0 : ℚ), (0 : ℚ)), (1, 25), (2, 50), (3, 75), (4, 100)]
        = some 2 := by
  obtain ⟨a, rest, rfl, -, -, -, -⟩ := is_valid_cdf_destructure hvalid
  refine ⟨?_, ?_, ?_⟩
  · rw [calculate_average_value, cav_loop_eq_trapezoid]
  · norm_num [calculate_average_value, cav_loop]
  · norm_num [calculate_average_value, cav_loop]

/-- C7 witness: the theorem applied at the first reference CDF. -/
theorem c7_witness :
    is_valid_cdf [((0 : ℚ), (0 : ℚ)), (1, 50), (2, 100)] = some true ∧
      calculate_average_value [((0 : ℚ), (0 : ℚ)), (1, 50), (2, 100)]
        = some (trapezoidSum [((0 : ℚ), (0 : ℚ)), (1, 50), (2, 100)] / 100) :=
  ⟨by decide, (c7_average_is_trapezoidal _ (by decide)).1⟩

/-- C9: for a valid CDF, `get_percentile_from_value` returns the sentinel
`-1` whenever the queried value is negative or exceeds the last point's
value; the sentinel branch precedes the interpolation loop, so no
interpolation happens. -/
theorem c9_out_of_range_value_yields_sentinel (cdf : List (CdfDataPoint ℚ))
    (lastPoint : CdfDataPoint ℚ) (v : ℚ) (hvalid : is_valid_cdf cdf = some true)
    (hlast : cdf.getLast? = some lastPoint) (hout : v < 0 ∨ lastPoint.1 < v) :
    get_percentile_from_value cdf v = some (-1) := by
  rw [get_percentile_from_value, hlast]
  exact if_pos hout

/-- C9 witness: the theorem applied at the reference CDF and `v = 3`. -/
theorem c9_witness :
    is_valid_cdf [((0 : ℚ), (0 : ℚ)), (1, 50), (2, 100)] = some true ∧
      [((0 : ℚ), (0 : ℚ)), (1, 50), (2, 100)].getLast? = some (2, 100) ∧
      ((3 : ℚ) < 0 ∨ (2 : ℚ) < 3) ∧
      get_percentile_from_value [((0 : ℚ), (0 : ℚ)), (1, 50), (2, 100)] 3 = some (-1) :=
  ⟨by decide, by decide, Or.inr (by norm_num),
    c9_out_of_range_value_yields_sentinel _ (2, 100) 3 (by decide) (by decide)
      (Or.inr (by norm_num))⟩

/-- C10: on the valid CDF `[(1,0),(2,100)]`, whose first value `1` exceeds
`0`, the in-range value `v = 0.99` (`0 ≤ v ≤ 2`) makes
`get_percentile_from_value` extrapolate below the first breakpoint and
return exactly `-1` — so a `-1` return does not uniquely identify
out-of-range input. -/
theorem c10_in_range_value_can_yield_sentinel :
    is_valid_cdf [((1 : ℚ), (0 : ℚ)), (2, 100)] = some true ∧
      (0 : ℚ) < 1 ∧ (0 : ℚ) ≤ 99 / 100 ∧ (99 : ℚ) / 100 ≤ 2 ∧
      get_percentile_from_value [((1 : ℚ), (0 : ℚ)), (2, 100)] (99 / 100)
        = some (-1) := by
  refine ⟨by decide, by norm_num, by norm_num, by norm_num, ?_⟩
  norm_num [get_percentile_from_value, gpv_loop]

namespace TrafficGen

variable {α : Type} [LinearOrderedField α]

theorem gvfp_at_zero (a b : CdfDataPoint α) (t : List (CdfDataPoint α))
    (hchain : (a :: b :: t).Chain' StrictStep) (h0 : a.2 = 0) :
    get_value_from_percentile (a :: b :: t) 0 = some a.1 := by
  rw [List.chain'_cons] at hchain
  have hb : (0 : α) ≤ b.2 := le_of_lt (h0 ▸ hchain.1.2)
  rw [get_value_from_percentile, if_pos hb, h0]
  norm_num

theorem gvfp_at_hundred :
    ∀ (a : CdfDataPoint α) (l : List (CdfDataPoint α)),
      (a :: l).Chain' StrictStep → l ≠ [] → (l.getLastD a).2 = 100 →
      get_value_from_percentile (a :: l) 100 = some (l.getLastD a).1
  | _, [], _, hne, _ => absurd rfl hne
  | a, [b], hchain, _, hlast => by
    rw [List.chain'_cons] at hchain
    have hab := hchain.1
    simp only [List.getLastD_cons, List.getLastD_nil] at hlast ⊢
    rw [get_value_from_percentile, if_pos (le_of_eq hlast.symm)]
    have ha2 : a.2 < 100 := hlast ▸ hab.2
    have hne2 : (100 : α) - a.2 ≠ 0 := ne_of_gt (by linarith)
    rw [hlast]
    congr 1
    field_simp
  | a, b :: c :: t, hchain, _, hlast => by
    rw [List.chain'_cons] at hchain
    simp only [List.getLastD_cons] at hlast ⊢
    have hblast : StrictStep b ((c :: t).getLastD b) :=
      chain'_strictStep_getLastD b hchain.2 (by simp)
    simp only [List.getLastD_cons] at hblast
    have hb2 : b.2 < 100 := hlast ▸ hblast.2
    rw [get_value_from_percentile, if_neg (not_le_of_lt hb2)]
    have htail := gvfp_at_hundred b (c :: t) hchain.2 (by simp)
      (by simp only [List.getLastD_cons]; exact hlast)
    simpa only [List.getLastD_cons] using htail

theorem roundtrip_loop :
    ∀ (v : α) (a : CdfDataPoint α) (l : List (CdfDataPoint α)),
      (a :: l).Chain' StrictStep → l ≠ [] → v ≤ (l.getLastD a).1 →
      ∃ p, gpv_loop (a :: l) v = some p ∧
        get_value_from_percentile (a :: l) p = some v ∧ (a.1 < v → a.2 < p)
  | _, _, [], _, hne, _ => absurd rfl hne
  | v, a, b :: t, hchain, _, hle => by
    rw [List.chain'_cons] at hchain
    have hab := hchain.1
    have hv1 : (0 : α) < b.1 - a.1 := sub_pos.mpr hab.1
    have hv2 : (0 : α) < b.2 - a.2 := sub_pos.mpr hab.2
    by_cases hvb : v ≤ b.1
    · refine ⟨a.2 + (b.2 - a.2) / (b.1 - a.1) * (v - a.1), ?_, ?_, ?_⟩
      · rw [gpv_loop, if_pos hvb]
      · have hslope : (0 : α) < (b.2 - a.2) / (b.1 - a.1) := div_pos hv2 hv1
        have hcancel : (b.2 - a.2) / (b.1 - a.1) * (b.1 - a.1) = b.2 - a.2 :=
          div_mul_cancel₀ _ (ne_of_gt hv1)
        have hp_le : a.2 + (b.2 - a.2) / (b.1 - a.1) * (v - a.1) ≤ b.2 := by
          have := mul_le_mul_of_nonneg_left (sub_le_sub_right hvb a.1) hslope.le
          rw [hcancel] at this
          linarith
        rw [get_value_from_percentile, if_pos hp_le]
        congr 1
        field_simp
        ring
      · intro hav
        have hslope : (0 : α) < (b.2 - a.2) / (b.1 - a.1) := div_pos hv2 hv1
        nlinarith [mul_pos hslope (sub_pos.mpr hav)]
    · rcases t with - | ⟨c, t'⟩
      · exact absurd (by simpa using hle) hvb
      · obtain ⟨p, hp1, hp2, hp3⟩ :=
          roundtrip_loop v b (c :: t') hchain.2 (by simp)
            (by simpa [List.getLastD_cons] using hle)
        have hbp : b.2 < p := hp3 (lt_of_not_le hvb)
        refine ⟨p, ?_, ?_, fun _ => lt_trans hab.2 hbp⟩
        · rw [gpv_loop, if_neg hvb]
          exact hp1
        · rw [get_value_from_percentile, if_neg (not_le_of_lt hbp)]
          exact hp2

end TrafficGen

/-- C8: for every valid CDF, `get_value_from_percentile` at percentile `0`
returns the first point's value, and at percentile `100` the last point's
value. -/
theorem c8_boundary_percentiles (cdf : List (CdfDataPoint ℚ))
    (first lastPoint : CdfDataPoint ℚ) (hvalid : is_valid_cdf cdf = some true)
    (hfirst : cdf.head? = some first) (hlast : cdf.getLast? = some lastPoint) :
    get_value_from_percentile cdf 0 = some first.1 ∧
      get_value_from_percentile cdf 100 = some lastPoint.1 := by
  obtain ⟨a, rest, rfl, hne, h0, h100, hchain⟩ := is_valid_cdf_destructure hvalid
  have hfa : first = a := by
    rw [List.head?_cons] at hfirst
    exact (Option.some_injective _ hfirst).symm
  have hlastD : lastPoint = rest.getLastD a := by
    rw [List.getLast?_cons] at hlast
    rw [List.getLastD_eq_getLast?]
    exact (Option.some_injective _ hlast).symm
  rcases rest with - | ⟨b, t⟩
  · exact absurd rfl hne
  · refine ⟨?_, ?_⟩
    · rw [hfa]
      exact gvfp_at_zero a b t hchain h0
    · rw [hlastD]
      exact gvfp_at_hundred a (b :: t) hchain (by simp) h100

/-- C8 witness: the theorem applied at the reference CDF
`[(0,0),(1,50),(2,100)]`. -/
theorem c8_witness :
    is_valid_cdf [((0 : ℚ), (0 : ℚ)), (1, 50), (2, 100)] = some true ∧
      get_value_from_percentile [((0 : ℚ), (0 : ℚ)), (1, 50), (2, 100)] 0 = some 0 ∧
      get_value_from_percentile [((0 : ℚ), (0 : ℚ)), (1, 50), (2, 100)] 100 = some 2 :=
  ⟨by decide,
    (c8_boundary_percentiles _ (0, 0) (2, 100) (by decide) (by decide) (by decide)).1,
    (c8_boundary_percentiles _ (0, 0) (2, 100) (by decide) (by decide) (by decide)).2⟩

/-- C6: for every valid CDF and every in-range value `0 ≤ v ≤` last value,
feeding `get_percentile_from_value`'s result back through
`get_value_from_percentile` reproduces `v` exactly (the model's arithmetic
is exact, so "within floating tolerance" holds with zero error). -/
theorem c6_roundtrip (cdf : List (CdfDataPoint ℚ)) (lastPoint : CdfDataPoint ℚ)
    (v : ℚ) (hvalid : is_valid_cdf cdf = some true)
    (hlast : cdf.getLast? = some lastPoint) (h0 : 0 ≤ v) (hle : v ≤ lastPoint.1) :
    (get_percentile_from_value cdf v).bind (get_value_from_percentile cdf) = some v := by
  obtain ⟨a, rest, rfl, hne, -, -, hchain⟩ := is_valid_cdf_destructure hvalid
  have hlastD : lastPoint = rest.getLastD a := by
    rw [List.getLast?_cons] at hlast
    rw [List.getLastD_eq_getLast?]
    exact (Option.some_injective _ hlast).symm
  obtain ⟨p, hp1, hp2, -⟩ := roundtrip_loop v a rest hchain hne (hlastD ▸ hle)
  have hred : get_percentile_from_value (a :: rest) v = gpv_loop (a :: rest) v := by
    rw [get_percentile_from_value, hlast]
    exact if_neg (by push_neg; exact ⟨h0, hle⟩)
  rw [hred, hp1]
  simpa using hp2

/-- C6 witness: the theorem applied at the reference CDF and `v = 3/2`. -/
theorem c6_witness :
    is_valid_cdf [((0 : ℚ), (0 : ℚ)), (1, 50), (2, 100)] = some true ∧
      (0 : ℚ) ≤ 3 / 2 ∧ (3 / 2 : ℚ) ≤ 2 ∧
      (get_percentile_from_value [((0 : ℚ), (0 : ℚ)), (1, 50), (2, 100)] (3 / 2)).bind
          (get_value_from_percentile [((0 : ℚ), (0 : ℚ)), (1, 50), (2, 100)])
        = some (3 / 2) :=
  ⟨by decide, by norm_num, by norm_num,
    c6_roundtrip _ (2, 100) (3 / 2) (by decide) (by decide) (by norm_num) (by norm_num)⟩

namespace TrafficGen

theorem get_dst_ne (src n : ℕ) :
    ∀ (fuel : ℕ) (draws : ℕ → ℕ) (d : ℕ), get_dst src n draws fuel = some d → d ≠ src := by
  intro fuel
  induction fuel with
  | zero => intro draws d h; exact absurd h (by simp [get_dst])
  | succ m ih =>
    intro draws d h
    rw [get_dst] at h
    by_cases hd : draws 0 % n = src
    · rw [if_pos hd] at h
      exact ih _ d h
    · rw [if_neg hd] at h
      obtain rfl := Option.some_injective _ h
      exact hd

theorem gen_host_flows_mem (cdf : List (CdfDataPoint ℝ)) (src n : ℕ)
    (base dur mean : ℝ) (gaps sizes : ℕ → ℝ) (dsts : ℕ → ℕ → ℕ) (dfuel : ℕ) :
    ∀ (fuel k : ℕ) (clock : ℝ) (f : Flow),
      f ∈ (gen_host_flows cdf src n base dur mean gaps sizes dsts dfuel k fuel clock).1 →
      f.src_idx = src ∧ f.dst_idx ≠ src ∧ 1 ≤ f.size_bytes := by
  intro fuel
  induction fuel with
  | zero => intro k clock f hf; exact absurd hf (by simp [gen_host_flows])
  | succ m ih =>
    intro k clock f hf
    rw [gen_host_flows] at hf
    by_cases hcl : clock < base + dur
    · rw [if_pos hcl] at hf
      cases hd : get_dst src n (dsts k) dfuel with
      | none => simp [hd] at hf
      | some dst =>
        cases hs : get_value_from_percentile cdf (sizes k * 100) with
        | none => simp [hd, hs] at hf
        | some sz =>
          simp only [hd, hs] at hf
          rcases List.mem_cons.mp hf with rfl | hf'
          · exact ⟨rfl, get_dst_ne src n dfuel (dsts k) dst hd, le_max_right _ _⟩
          · exact ih (k + 1) _ f hf'
    · rw [if_neg hcl] at hf
      exact absurd hf (by simp)

theorem foldl_host_acc_mem {β : Type} (g : ℕ → List β × Bool) :
    ∀ (L : List ℕ) (acc : List β × Bool) (x : β),
      x ∈ (L.foldl (fun acc s => (acc.1 ++ (g s).1, acc.2 && (g s).2)) acc).1 →
      x ∈ acc.1 ∨ ∃ s ∈ L, x ∈ (g s).1 := by
  intro L
  induction L with
  | nil => intro acc x hx; exact Or.inl hx
  | cons s t ih =>
    intro acc x hx
    rcases ih _ x hx with h | ⟨s', hs', hx'⟩
    · rcases List.mem_append.mp h with h | h
      · exact Or.inl h
      · exact Or.inr ⟨s, List.mem_cons_self s t, h⟩
    · exact Or.inr ⟨s', List.mem_cons_of_mem _ hs', hx'⟩

theorem gen_flows_mem (cdf : List (CdfDataPoint ℝ)) (nhost : ℕ)
    (base dur mean : ℝ) (gaps sizes : ℕ → ℕ → ℝ) (dsts : ℕ → ℕ → ℕ → ℕ)
    (dfuel fuel : ℕ) (f : Flow)
    (hf : f ∈ (gen_flows cdf nhost base dur mean gaps sizes dsts dfuel fuel).1) :
    f.src_idx < nhost ∧ f.dst_idx ≠ f.src_idx ∧ 1 ≤ f.size_bytes := by
  rw [gen_flows] at hf
  rcases foldl_host_acc_mem _ (List.range nhost) ([], true) f hf with h | ⟨s, hs, hx⟩
  · exact absurd h (by simp)
  · obtain ⟨h1, h2, h3⟩ := gen_host_flows_mem cdf s nhost _ _ _ _ _ _ _ fuel 0 _ f hx
    exact ⟨h1 ▸ List.mem_range.mp hs, by rw [h1]; exact h2, h3⟩

theorem pairwise_flowLE_filter (l : List Flow) (t : ℝ) :
    (l.filter (fun f => decide (f.start_time_s = t))).Pairwise flowLE := by
  refine List.pairwise_of_forall_mem_list ?_
  intro a ha b hb
  have hat : a.start_time_s = t := of_decide_eq_true (List.mem_filter.mp ha).2
  have hbt : b.start_time_s = t := of_decide_eq_true (List.mem_filter.mp hb).2
  unfold flowLE
  rw [hat, hbt]

end TrafficGen

/-- C5: for `hostCount = 4`, a valid CDF and positive duration, every flow of
a completed run of `traffic_main` has `size_bytes ≥ 1`, a destination
different from its source and a source in `[0,4)`, and the output is the
stable `start_time_s`-sort of the generation-order flow list: it is sorted,
a permutation of the generated list, and flows with equal start times keep
their generation order (each equal-time filter of the generated list is a
sublist of the output). -/
theorem c5_end_to_end_flow_invariants (cdf : List (CdfDataPoint ℝ))
    (load bandwidth_bps base_time_s sim_duration_s : ℝ)
    (gap_draws size_draws : ℕ → ℕ → ℝ) (dst_draws : ℕ → ℕ → ℕ → ℕ)
    (dst_fuel fuel : ℕ) (out : List Flow)
    (hvalid : is_valid_cdf cdf = some true) (hdur : 0 < sim_duration_s)
    (hrun : traffic_main 4 load bandwidth_bps base_time_s sim_duration_s cdf
      gap_draws size_draws dst_draws dst_fuel fuel = some out) :
    (∀ f ∈ out, 1 ≤ f.size_bytes ∧ f.dst_idx ≠ f.src_idx ∧ f.src_idx < 4) ∧
      out.Sorted flowLE ∧
      (∃ avg_value : ℝ, ∃ gen : List Flow,
        calculate_average_value cdf = some avg_value ∧
        gen = (gen_flows cdf 4 (base_time_s * NS_IN_S) (sim_duration_s * NS_IN_S)
          (avg_value * BYTE_TO_BIT / (bandwidth_bps * load) * NS_IN_S)
          gap_draws size_draws dst_draws dst_fuel fuel).1 ∧
        out = gen.insertionSort flowLE ∧ out.Perm gen ∧
        ∀ t : ℝ, List.Sublist (gen.filter (fun f => decide (f.start_time_s = t))) out) := by
  obtain ⟨a, rest, rfl, -, -, -, -⟩ := is_valid_cdf_destructure hvalid
  simp only [traffic_main, calculate_average_value] at hrun
  rw [if_neg (by norm_num)] at hrun
  rw [if_neg (by simp [hvalid])] at hrun
  by_cases hzero : bandwidth_bps * load = 0
  · rw [if_pos hzero] at hrun
    exact absurd hrun (by simp)
  · rw [if_neg hzero] at hrun
    set run := gen_flows (a :: rest) 4 (base_time_s * NS_IN_S) (sim_duration_s * NS_IN_S)
      (cav_loop a rest / 100 * BYTE_TO_BIT / (bandwidth_bps * load) * NS_IN_S)
      gap_draws size_draws dst_draws dst_fuel fuel with hrun_def
    cases hb : run.2 with
    | false =>
      rw [hb] at hrun
      exact absurd hrun (by simp)
    | true =>
      rw [if_pos hb] at hrun
      have hout : out = run.1.insertionSort flowLE := (Option.some_injective _ hrun).symm
      refine ⟨?_, ?_, ?_⟩
      · intro f hf
        rw [hout] at hf
        have hf' : f ∈ run.1 := (List.mem_insertionSort flowLE).mp hf
        obtain ⟨h1, h2, h3⟩ := gen_flows_mem _ _ _ _ _ _ _ _ _ _ f hf'
        exact ⟨h3, h2, h1⟩
      · rw [hout]
        exact List.sorted_insertionSort flowLE run.1
      · refine ⟨cav_loop a rest / 100, run.1, rfl, rfl, hout, ?_, ?_⟩
        · rw [hout]
          exact List.perm_insertionSort flowLE run.1
        · intro t
          rw [hout]
          exact List.sublist_insertionSort (pairwise_flowLE_filter run.1 t)
            (List.filter_sublist run.1)

namespace TrafficGen

theorem gen_host_flows_immediate_exit (cdf : List (CdfDataPoint ℝ)) (src n : ℕ)
    (base dur mean : ℝ) (gaps sizes : ℕ → ℝ) (dsts : ℕ → ℕ → ℕ) (dfuel k fuel : ℕ)
    (clock : ℝ) (hfuel : fuel ≠ 0) (h : ¬ clock < base + dur) :
    gen_host_flows cdf src n base dur mean gaps sizes dsts dfuel k fuel clock = ([], true) := by
  obtain ⟨m, rfl⟩ := Nat.exists_eq_succ_of_ne_zero hfuel
  rw [gen_host_flows, if_neg h]

theorem gen_flows_all_exit (cdf : List (CdfDataPoint ℝ)) (n : ℕ)
    (base dur mean : ℝ) (gaps sizes : ℕ → ℕ → ℝ) (dsts : ℕ → ℕ → ℕ → ℕ)
    (dfuel fuel : ℕ) (hfuel : fuel ≠ 0)
    (h : ∀ src, ¬ base + ((pyInt (exponential_dist_sample (gaps src 0) mean)) : ℝ)
      < base + dur) :
    gen_flows cdf n base dur mean gaps sizes dsts dfuel fuel = ([], true) := by
  rw [gen_flows]
  have hstep : ∀ (L : List ℕ),
      L.foldl (fun acc src_idc =>
        let hostRun := gen_host_flows cdf src_idc n base dur mean (gaps src_idc)
          (sizes src_idc) (dsts src_idc) dfuel 0 fuel
          (base + (pyInt (exponential_dist_sample (gaps src_idc 0) mean) : ℝ))
        (acc.1 ++ hostRun.1, acc.2 && hostRun.2)) ([], true) = ([], true) := by
    intro L
    induction L with
    | nil => rfl
    | cons s t ih =>
      rw [List.foldl_cons]
      have hexit := gen_host_flows_immediate_exit cdf s n base dur mean (gaps s) (sizes s)
        (dsts s) dfuel 0 fuel
        (base + (pyInt (exponential_dist_sample (gaps s 0) mean) : ℝ)) hfuel (h s)
      simp only [hexit, List.append_nil, Bool.and_true]
      exact ih
  exact hstep (List.range n)

theorem exponential_dist_sample_unit_draw (m : ℝ) :
    exponential_dist_sample (1 - Real.exp (-1)) m = m := by
  unfold exponential_dist_sample
  rw [show (1 : ℝ) - (1 - Real.exp (-1)) = Real.exp (-1) by ring, Real.log_exp]
  ring

/-- A fully concrete completed run of `traffic_main`: every host's first
inter-arrival draw already reaches the simulation horizon
(the uniform draw `1 - e⁻¹` makes the exponential sample equal the mean,
`10⁹ ns`), so the run finishes with an empty flow list. -/
theorem traffic_main_concrete_empty_run :
    traffic_main 4 1 8 0 1 [((0 : ℝ), (0 : ℝ)), (1, 50), (2, 100)]
      (fun _ _ => 1 - Real.exp (-1)) (fun _ _ => 1 / 2) (fun _ _ _ => 1) 1 1 = some [] := by
  have hvalid : is_valid_cdf [((0 : ℝ), (0 : ℝ)), (1, 50), (2, 100)] = some true := by
    norm_num [is_valid_cdf, cdf_steps_ok]
  have hmean : cav_loop ((0 : ℝ), (0 : ℝ)) [(1, 50), (2, 100)] / 100 * BYTE_TO_BIT / (8 * 1)
      * NS_IN_S = 1000000000 := by
    norm_num [cav_loop, BYTE_TO_BIT, NS_IN_S]
  have hpy : pyInt 1000000000 = 1000000000 := by
    rw [pyInt, if_pos (by norm_num)]
    norm_num
  have hcond : ∀ src : ℕ, ¬ (0 : ℝ) * NS_IN_S
      + ((pyInt (exponential_dist_sample ((fun _ _ => 1 - Real.exp (-1)) src 0)
        (cav_loop ((0 : ℝ), (0 : ℝ)) [(1, 50), (2, 100)] / 100 * BYTE_TO_BIT / (8 * 1)
          * NS_IN_S))) : ℝ)
      < (0 : ℝ) * NS_IN_S + 1 * NS_IN_S := by
    intro src
    show ¬ (0 : ℝ) * NS_IN_S + ((pyInt (exponential_dist_sample (1 - Real.exp (-1))
      (cav_loop ((0 : ℝ), (0 : ℝ)) [(1, 50), (2, 100)] / 100 * BYTE_TO_BIT / (8 * 1)
        * NS_IN_S))) : ℝ) < (0 : ℝ) * NS_IN_S + 1 * NS_IN_S
    rw [hmean, exponential_dist_sample_unit_draw, hpy]
    norm_num [NS_IN_S]
  simp only [traffic_main, calculate_average_value]
  rw [if_neg (by norm_num), if_neg (not_not_intro hvalid)]
  rw [if_neg (show ¬ (8 * 1 : ℝ) = 0 by norm_num)]
  rw [gen_flows_all_exit [((0 : ℝ), (0 : ℝ)), (1, 50), (2, 100)] 4 (0 * NS_IN_S) (1 * NS_IN_S)
    (cav_loop ((0 : ℝ), (0 : ℝ)) [(1, 50), (2, 100)] / 100 * BYTE_TO_BIT / (8 * 1) * NS_IN_S)
    (fun _ _ => 1 - Real.exp (-1)) (fun _ _ => 1 / 2) (fun _ _ _ => 1) 1 1
    (by norm_num) hcond]
  rfl

end TrafficGen

/-- C5 witness: the theorem applied to a fully concrete completed run
(4 hosts, the reference CDF, duration 1 s) whose flow list is empty. -/
theorem c5_witness :
    is_valid_cdf [((0 : ℝ), (0 : ℝ)), (1, 50), (2, 100)] = some true ∧
      (0 : ℝ) < 1 ∧
      traffic_main 4 1 8 0 1 [((0 : ℝ), (0 : ℝ)), (1, 50), (2, 100)]
        (fun _ _ => 1 - Real.exp (-1)) (fun _ _ => 1 / 2) (fun _ _ _ => 1) 1 1 = some [] ∧
      ((∀ f ∈ ([] : List Flow), 1 ≤ f.size_bytes ∧ f.dst_idx ≠ f.src_idx ∧ f.src_idx < 4) ∧
        ([] : List Flow).Sorted flowLE ∧
        (∃ avg_value : ℝ, ∃ gen : List Flow,
          calculate_average_value [((0 : ℝ), (0 : ℝ)), (1, 50), (2, 100)] = some avg_value ∧
          gen = (gen_flows [((0 : ℝ), (0 : ℝ)), (1, 50), (2, 100)] 4 (0 * NS_IN_S)
            (1 * NS_IN_S) (avg_value * BYTE_TO_BIT / (8 * 1) * NS_IN_S)
            (fun _ _ => 1 - Real.exp (-1)) (fun _ _ => 1 / 2) (fun _ _ _ => 1) 1 1).1 ∧
          ([] : List Flow) = gen.insertionSort flowLE ∧ ([] : List Flow).Perm gen ∧
          ∀ t : ℝ, List.Sublist (gen.filter (fun f => decide (f.start_time_s = t)))
            ([] : List Flow))) := by
  have hvalid : is_valid_cdf [((0 : ℝ), (0 : ℝ)), (1, 50), (2, 100)] = some true := by
    norm_num [is_valid_cdf, cdf_steps_ok]
  exact ⟨hvalid, by norm_num, traffic_main_concrete_empty_run,
    c5_end_to_end_flow_invariants [((0 : ℝ), (0 : ℝ)), (1, 50), (2, 100)] 1 8 0 1
      (fun _ _ => 1 - Real.exp (-1)) (fun _ _ => 1 / 2) (fun _ _ _ => 1) 1 1 []
      hvalid (by norm_num) traffic_main_concrete_empty_run⟩

namespace TrafficGen

theorem pyInt_nonpos {x : ℝ} (h : x ≤ 0) : pyInt x ≤ 0 := by
  rw [pyInt]
  split_ifs with h0
  · have hx0 : x = 0 := le_antisymm h h0
    simp [hx0]
  · exact Int.ceil_le.mpr (by exact_mod_cast h)

theorem exponential_dist_sample_nonpos {u mean : ℝ} (h0 : 0 ≤ u) (h1 : u < 1)
    (hm : mean ≤ 0) : exponential_dist_sample u mean ≤ 0 := by
  have hlog : Real.log (1 - u) ≤ 0 := Real.log_nonpos (by linarith) (by linarith)
  unfold exponential_dist_sample
  nlinarith [mul_nonneg (neg_nonneg.mpr hlog) (neg_nonneg.mpr hm)]

theorem gen_host_flows_one_step (cdf : List (CdfDataPoint ℝ)) (src n : ℕ)
    (base dur mean : ℝ) (gaps sizes : ℕ → ℝ) (dsts : ℕ → ℕ → ℕ) (dfuel k : ℕ)
    (clock : ℝ) (d : ℕ) (sz : ℝ) (h : clock < base + dur)
    (hdst : get_dst src n (dsts k) dfuel = some d)
    (hsz : get_value_from_percentile cdf (sizes k * 100) = some sz) :
    gen_host_flows cdf src n base dur mean gaps sizes dsts dfuel k 1 clock
      = ([⟨src, d, max (pyInt sz) 1, clock / NS_IN_S⟩], false) := by
  show gen_host_flows cdf src n base dur mean gaps sizes dsts dfuel k (0 + 1) clock = _
  rw [gen_host_flows, if_pos h, hdst, hsz]
  rfl

theorem gen_host_flows_dst_none_step (cdf : List (CdfDataPoint ℝ)) (src n : ℕ)
    (base dur mean : ℝ) (gaps sizes : ℕ → ℝ) (dsts : ℕ → ℕ → ℕ) (dfuel k : ℕ)
    (clock : ℝ) (h : clock < base + dur)
    (hdst : get_dst src n (dsts k) dfuel = none) :
    gen_host_flows cdf src n base dur mean gaps sizes dsts dfuel k 1 clock
      = ([], false) := by
  show gen_host_flows cdf src n base dur mean gaps sizes dsts dfuel k (0 + 1) clock = _
  rw [gen_host_flows, if_pos h, hdst]

end TrafficGen

/-- C1 counterexample: with the valid reference CDF, `nhost = 2`,
`bandwidth = 8`, `load = -1` the target load `8 * (-1)` is negative, yet the
per-host generation loop is entered and emits a flow: the generated flow list
of the run is non-empty (a partial flow set exists) and the generation flag is
`false` (the loop did not finish) — the degenerate configuration is neither
rejected before the loop nor free of emitted flows.  The mean inter-arrival
argument is exactly the one `traffic_main` computes for this configuration. -/
theorem c1_counterexample :
    (8 : ℝ) * (-1) < 0 ∧
      (gen_flows [((0 : ℝ), (0 : ℝ)), (1, 50), (2, 100)] 2 (0 * NS_IN_S) (1 * NS_IN_S)
        (cav_loop ((0 : ℝ), (0 : ℝ)) [(1, 50), (2, 100)] / 100 * BYTE_TO_BIT / (8 * (-1))
          * NS_IN_S)
        (fun _ _ => 1 / 2) (fun _ _ => 1 / 2) (fun _ _ _ => 1) 1 1).1 ≠ [] ∧
      (gen_flows [((0 : ℝ), (0 : ℝ)), (1, 50), (2, 100)] 2 (0 * NS_IN_S) (1 * NS_IN_S)
        (cav_loop ((0 : ℝ), (0 : ℝ)) [(1, 50), (2, 100)] / 100 * BYTE_TO_BIT / (8 * (-1))
          * NS_IN_S)
        (fun _ _ => 1 / 2) (fun _ _ => 1 / 2) (fun _ _ _ => 1) 1 1).2 = false := by
  refine ⟨by norm_num, ?_⟩
  set M := cav_loop ((0 : ℝ), (0 : ℝ)) [(1, 50), (2, 100)] / 100 * BYTE_TO_BIT / (8 * (-1))
    * NS_IN_S with hMdef
  have hM : M = -1000000000 := by
    rw [hMdef]
    norm_num [cav_loop, BYTE_TO_BIT, NS_IN_S]
  have hlog : Real.log (1 - 1 / 2 : ℝ) < 0 := Real.log_neg (by norm_num) (by norm_num)
  have hgap : exponential_dist_sample (1 / 2) M < 0 := by
    rw [hM]
    unfold exponential_dist_sample
    nlinarith
  have hpyr : ((pyInt (exponential_dist_sample (1 / 2) M)) : ℝ) ≤ 0 := by
    exact_mod_cast pyInt_nonpos hgap.le
  have hclock : (0 : ℝ) * NS_IN_S + ((pyInt (exponential_dist_sample (1 / 2) M)) : ℝ)
      < 0 * NS_IN_S + 1 * NS_IN_S := by
    simp only [NS_IN_S]
    nlinarith
  have hdst0 : get_dst 0 2 (fun _ => 1) 1 = some 1 := rfl
  have hdst1 : get_dst 1 2 (fun _ => 1) 1 = none := rfl
  have hsz : get_value_from_percentile [((0 : ℝ), (0 : ℝ)), (1, 50), (2, 100)]
      ((1 / 2 : ℝ) * 100) = some 1 := by
    rw [get_value_from_percentile, if_pos (by norm_num)]
    norm_num
  simp only [gen_flows, show List.range 2 = [0, 1] from rfl, List.foldl_cons,
    List.foldl_nil]
  rw [gen_host_flows_one_step [((0 : ℝ), (0 : ℝ)), (1, 50), (2, 100)] 0 2 (0 * NS_IN_S)
    (1 * NS_IN_S) M (fun _ => 1 / 2) (fun _ => 1 / 2) (fun _ _ => 1) 1 0
    (0 * NS_IN_S + ((pyInt (exponential_dist_sample (1 / 2) M)) : ℝ)) 1 1
    hclock hdst0 hsz]
  rw [gen_host_flows_dst_none_step [((0 : ℝ), (0 : ℝ)), (1, 50), (2, 100)] 1 2 (0 * NS_IN_S)
    (1 * NS_IN_S) M (fun _ => 1 / 2) (fun _ => 1 / 2) (fun _ _ => 1) 1 0
    (0 * NS_IN_S + ((pyInt (exponential_dist_sample (1 / 2) M)) : ℝ))
    hclock hdst1]
  constructor
  · simp
  · simp

/-- C1 amended: the code performs no explicit validation of the target load
or the mean inter-arrival time.  (a) When the target load
`bandwidth_bps * load` is exactly zero, the run aborts while computing the
mean inter-arrival time (`ZeroDivisionError`, modelled `none`) — before the
generation loop, with no flow emitted.  (b) When the mean inter-arrival time
is negative (as a negative target load makes it), the per-host generation
loop is entered and never finishes: for every fuel bound, as long as the
clock is below the horizon, the loop's completion flag stays `false`. -/
theorem c1_amended :
    (∀ (nhost : ℕ) (load bandwidth_bps base_time_s sim_duration_s : ℝ)
      (cdf : List (CdfDataPoint ℝ)) (gap_draws size_draws : ℕ → ℕ → ℝ)
      (dst_draws : ℕ → ℕ → ℕ → ℕ) (dst_fuel fuel : ℕ),
      2 ≤ nhost → is_valid_cdf cdf = some true → bandwidth_bps * load = 0 →
      traffic_main nhost load bandwidth_bps base_time_s sim_duration_s cdf
        gap_draws size_draws dst_draws dst_fuel fuel = none) ∧
    (∀ (cdf : List (CdfDataPoint ℝ)) (src n : ℕ) (base dur mean : ℝ)
      (gaps sizes : ℕ → ℝ) (dsts : ℕ → ℕ → ℕ) (dfuel fuel k : ℕ) (clock : ℝ),
      mean < 0 → (∀ j, 0 ≤ gaps j ∧ gaps j < 1) → clock < base + dur →
      (gen_host_flows cdf src n base dur mean gaps sizes dsts dfuel k fuel clock).2
        = false) := by
  constructor
  · intro nhost load bandwidth_bps base_time_s sim_duration_s cdf gap_draws size_draws
      dst_draws dst_fuel fuel h2 hvalid hzero
    obtain ⟨a, rest, rfl, -, -, -, -⟩ := is_valid_cdf_destructure hvalid
    simp only [traffic_main, calculate_average_value]
    rw [if_neg (by omega), if_neg (not_not_intro hvalid), if_pos hzero]
  · intro cdf src n base dur mean gaps sizes dsts dfuel fuel
    induction fuel with
    | zero => intro k clock _ _ _; rfl
    | succ m ih =>
      intro k clock hmean hu hcl
      rw [gen_host_flows, if_pos hcl]
      cases hd : get_dst src n (dsts k) dfuel with
      | none => simp [hd]
      | some dstv =>
        cases hs : get_value_from_percentile cdf (sizes k * 100) with
        | none => simp [hd, hs]
        | some sz =>
          simp only [hd, hs]
          have hgap : exponential_dist_sample (gaps (k + 1)) mean ≤ 0 :=
            exponential_dist_sample_nonpos (hu (k + 1)).1 (hu (k + 1)).2 hmean.le
          have hpyr : ((pyInt (exponential_dist_sample (gaps (k + 1)) mean)) : ℝ) ≤ 0 := by
            exact_mod_cast pyInt_nonpos hgap
          exact ih (k + 1) _ hmean hu (by linarith)

/-- C1 witness: part (a) applied at target load `8 * 0 = 0` with the
reference CDF (the run aborts with no output), and part (b) applied at mean
`-1`, horizon `0 + 1`, constant uniform draw `1/2`, fuel `3` (the per-host
loop is still unfinished). -/
theorem c1_witness :
    (2 ≤ 2 ∧ is_valid_cdf [((0 : ℝ), (0 : ℝ)), (1, 50), (2, 100)] = some true ∧
      (8 : ℝ) * 0 = 0 ∧
      traffic_main 2 0 8 0 1 [((0 : ℝ), (0 : ℝ)), (1, 50), (2, 100)]
        (fun _ _ => 1 / 2) (fun _ _ => 1 / 2) (fun _ _ _ => 1) 1 1 = none) ∧
    ((-1 : ℝ) < 0 ∧ (∀ j : ℕ, (0 : ℝ) ≤ (fun _ : ℕ => (1 / 2 : ℝ)) j ∧
        (fun _ : ℕ => (1 / 2 : ℝ)) j < 1) ∧ (0 : ℝ) < 0 + 1 ∧
      (gen_host_flows [((0 : ℝ), (0 : ℝ)), (1, 50), (2, 100)] 0 2 0 1 (-1)
        (fun _ => 1 / 2) (fun _ => 1 / 2) (fun _ _ => 1) 1 0 3 0).2 = false) := by
  have hvalid : is_valid_cdf [((0 : ℝ), (0 : ℝ)), (1, 50), (2, 100)] = some true := by
    norm_num [is_valid_cdf, cdf_steps_ok]
  refine ⟨⟨by norm_num, hvalid, by norm_num, ?_⟩, ⟨by norm_num, ?_, by norm_num, ?_⟩⟩
  · exact c1_amended.1 2 0 8 0 1 [((0 : ℝ), (0 : ℝ)), (1, 50), (2, 100)]
      (fun _ _ => 1 / 2) (fun _ _ => 1 / 2) (fun _ _ _ => 1) 1 1 (by norm_num) hvalid
      (by norm_num)
  · intro j
    exact ⟨by norm_num, by norm_num⟩
  · exact c1_amended.2 [((0 : ℝ), (0 : ℝ)), (1, 50), (2, 100)] 0 2 0 1 (-1)
      (fun _ => 1 / 2) (fun _ => 1 / 2) (fun _ _ => 1) 1 3 0 0 (by norm_num)
      (fun j => ⟨by norm_num, by norm_num⟩) (by norm_num)
